import Mathlib

/-!
# Verification of the x402-market-analysis trading-signal engine

A shallow embedding of the technical-analysis core (`generateTradingSignals`
and its helpers) of the x402-market-analysis repository, together with
theorems settling the specification's claims about it.

Modelling conventions:

* JavaScript `number` arithmetic is modelled as exact rational arithmetic
  (`ℚ`).  The literals `0.1`, `0.02`, `1.5`, … of the source appear as the
  rationals `1/10`, `1/50`, `3/2`, ….
* `Math.floor` is `Int.floor`, `Math.round` is `fun q => ⌊q + 1/2⌋`
  (round half towards positive infinity, as in JS), `Math.abs` is `|·|`,
  `Math.min`/`Math.max` are `min`/`max`.
* `array.slice(-k)` is `drop (length - k)`, `array.slice(0, -k)` is
  `take (length - k)`, `array.slice(-a, -b)` is `drop (length - a)` then
  `take (a - b)`; `reduce((a, b) => a + b, 0)` is `List.sum`.
* The external price fetch and the wall clock are effects outside the pure
  core: the embedded engine receives the fetched price history and the
  current time string (`new Date().toISOString()`) as explicit arguments.
* `throw new Error msg` is `Except.error msg`.
* `[...prices].sort((a, b) => a - b)` sorts a copy of the array ascending;
  the pure embedding uses `List.mergeSort`, and a small store model
  (`Store`, below) makes the copy-then-sort-in-place aliasing explicit for
  the frame theorem.
-/

/-- `SignalStrength` from the source. -/
inductive SignalStrength where
  | strong_buy
  | buy
  | neutral
  | sell
  | strong_sell
deriving DecidableEq, Inhabited, Repr

/-- The `trend` field's enumeration (`bullish | bearish | sideways`). -/
inductive Trend where
  | bullish
  | bearish
  | sideways
deriving DecidableEq, Inhabited, Repr

/-- The `volatility` field's enumeration (`low | medium | high`). -/
inductive Volatility where
  | low
  | medium
  | high
deriving DecidableEq, Inhabited, Repr

/-- `PriceData` from the source: one point of the fetched price history. -/
structure PriceData where
  timestamp : Int
  price : ℚ
  volume : ℚ
deriving DecidableEq, Inhabited, Repr

/-- `TechnicalIndicator` from the source. -/
structure TechnicalIndicator where
  name : String
  value : ℚ
  signal : SignalStrength
  interpretation : String
deriving DecidableEq, Inhabited, Repr

/-- `TradingSignal` from the source: the composite signal report. -/
structure TradingSignal where
  symbol : String
  currentPrice : ℚ
  overallSignal : SignalStrength
  confidence : ℚ
  indicators : List TechnicalIndicator
  supportLevel : ℚ
  resistanceLevel : ℚ
  trend : Trend
  volatility : Volatility
  summary : String
  generatedAt : String
deriving DecidableEq, Inhabited, Repr

/-- The result record of `calculateMACD`. -/
structure MACDResult where
  macd : ℚ
  signal : ℚ
  histogram : ℚ
deriving DecidableEq, Inhabited, Repr

/-- JavaScript `Math.round`: round half towards positive infinity. -/
def jsRound (q : ℚ) : ℤ := ⌊q + 1/2⌋

/-- The per-period price changes used by `calculateRSI`: consecutive
differences over the last `period + 1` prices (the source's
`slice(-period - 1)` followed by the `map`/`slice(1)` idiom). -/
def rsiChanges (prices : List ℚ) (period : ℕ) : List ℚ :=
  let win := prices.drop (prices.length - (period + 1))
  List.zipWith (fun a b => a - b) win.tail win

/-- The `avgGain` value computed inside `calculateRSI`. -/
def rsiAvgGain (prices : List ℚ) (period : ℕ) : ℚ :=
  let gains := (rsiChanges prices period).filter (fun c => decide (0 < c))
  if gains.length > 0 then gains.sum / (period : ℚ) else 0

/-- The `avgLoss` value computed inside `calculateRSI`. -/
def rsiAvgLoss (prices : List ℚ) (period : ℕ) : ℚ :=
  let losses := ((rsiChanges prices period).filter (fun c => decide (c < 0))).map
    (fun c => |c|)
  if losses.length > 0 then losses.sum / (period : ℚ) else 0

/-- `calculateRSI` from the source. -/
def calculateRSI (prices : List ℚ) (period : ℕ) : ℚ :=
  if prices.length < period + 1 then 50
  else if rsiAvgLoss prices period = 0 then 100
  else
    let rs := rsiAvgGain prices period / rsiAvgLoss prices period
    100 - 100 / (1 + rs)

/-- `calculateSMA` from the source: average of the last `period` prices
(the whole list when `period` exceeds its length). -/
def calculateSMA (prices : List ℚ) (period : ℕ) : ℚ :=
  let s := prices.drop (prices.length - period)
  s.sum / (s.length : ℚ)

/-- `calculateEMA` from the source: seeded with `prices[0]`, smoothed
forward with factor `k = 2/(period+1)`.  The source indexes `prices[0]`,
so the empty case never arises for the series the engine feeds it; the
embedding returns `0` there. -/
def calculateEMA (prices : List ℚ) (period : ℕ) : ℚ :=
  let k : ℚ := 2 / ((period : ℚ) + 1)
  match prices with
  | [] => 0
  | p :: rest => rest.foldl (fun ema x => x * k + ema * (1 - k)) p

/-- `calculateMACD` from the source.  The signal line is the 9-period EMA
of `prices.slice(0, -9)` with the scalar `macd` appended. -/
def calculateMACD (prices : List ℚ) : MACDResult :=
  let ema12 := calculateEMA prices 12
  let ema26 := calculateEMA prices 26
  let macd := ema12 - ema26
  let signal := calculateEMA (prices.take (prices.length - 9) ++ [macd]) 9
  { macd := macd, signal := signal, histogram := macd - signal }

/-- `calculateVolumeTrend` from the source. -/
def calculateVolumeTrend (volumes : List ℚ) : ℚ :=
  if volumes.length < 10 then 0
  else
    let recent := (volumes.drop (volumes.length - 5)).sum / 5
    let previous := ((volumes.drop (volumes.length - 10)).take 5).sum / 5
    if 0 < previous then (recent - previous) / previous else 0

/-- Ascending sort, the effect of the source's `sort((a, b) => a - b)` on a
rational-valued array. -/
def sortAsc (l : List ℚ) : List ℚ := l.mergeSort

/-- `calculateSupportResistance` from the source: the 10th and 90th
percentile entries of the ascending sort of the prices. -/
def calculateSupportResistance (prices : List ℚ) : ℚ × ℚ :=
  let sorted := sortAsc prices
  let low := sorted.getD (⌊(sorted.length : ℚ) * (1/10)⌋).toNat 0
  let high := sorted.getD (⌊(sorted.length : ℚ) * (9/10)⌋).toNat 0
  (low, high)

/-- `calculateVariance` from the source: population variance. -/
def calculateVariance (values : List ℚ) : ℚ :=
  let mean := values.sum / (values.length : ℚ)
  (values.map (fun v => (v - mean) ^ 2)).sum / (values.length : ℚ)

/-- `calculateVolatility` from the source.  The source compares
`sqrt(variance) * 100` with `2` and `5`; since the variance is a
nonnegative rational and `sqrt` is monotone, this is equivalent to
comparing `variance` with `(2/100)^2 = 1/2500` and `(5/100)^2 = 1/400`,
which keeps the definition inside `ℚ`. -/
def calculateVolatility (prices : List ℚ) : Volatility :=
  let returns := List.zipWith (fun p q => (p - q) / q) prices.tail prices
  let variance := calculateVariance returns
  if variance < 1/2500 then .low
  else if variance < 1/400 then .medium
  else .high

/-- `determineTrend` from the source.  `prices[prices.length - 8] ||
prices[0]` falls back to `prices[0]` both when the index is out of range
(length < 8; `Nat` subtraction already yields index 0 then) and when the
indexed value is `0` (a falsy number), which the `if w = 0` branch
reproduces. -/
def determineTrend (prices : List ℚ) (sma20 sma50 : ℚ) : Trend :=
  let current := prices.getD (prices.length - 1) 0
  let w := prices.getD (prices.length - 8) 0
  let weekAgo := if w = 0 then prices.getD 0 0 else w
  let priceChange := (current - weekAgo) / weekAgo
  if sma20 < current ∧ sma50 < sma20 ∧ 1/50 < priceChange then .bullish
  else if current < sma20 ∧ sma20 < sma50 ∧ priceChange < -(1/50) then .bearish
  else .sideways

/-- `rsiToSignal` from the source. -/
def rsiToSignal (rsi : ℚ) : SignalStrength :=
  if rsi < 20 then .strong_buy
  else if rsi < 30 then .buy
  else if 80 < rsi then .strong_sell
  else if 70 < rsi then .sell
  else .neutral

/-- `rsiInterpretation` from the source. -/
def rsiInterpretation (rsi : ℚ) : String :=
  if rsi < 20 then "Extremely oversold - potential reversal"
  else if rsi < 30 then "Oversold territory"
  else if 80 < rsi then "Extremely overbought - potential reversal"
  else if 70 < rsi then "Overbought territory"
  else "Neutral momentum"

/-- `macdToSignal` from the source. -/
def macdToSignal (m : MACDResult) : SignalStrength :=
  if 0 < m.histogram ∧ m.signal < m.macd then
    if 1/100 < m.histogram then .strong_buy else .buy
  else if m.histogram < 0 ∧ m.macd < m.signal then
    if m.histogram < -(1/100) then .strong_sell else .sell
  else .neutral

/-- `signalToScore` from the source. -/
def signalToScore : SignalStrength → ℚ
  | .strong_buy => 2
  | .buy => 1
  | .neutral => 0
  | .sell => -1
  | .strong_sell => -2

/-- `scoreToSignal` from the source. -/
def scoreToSignal (score : ℚ) : SignalStrength :=
  if 3/2 ≤ score then .strong_buy
  else if 1/2 ≤ score then .buy
  else if score ≤ -(3/2) then .strong_sell
  else if score ≤ -(1/2) then .sell
  else .neutral

/-- The `signalText` labels of `generateSummary`. -/
def signalText : SignalStrength → String
  | .strong_buy => "Strong Buy"
  | .buy => "Buy"
  | .neutral => "Hold/Neutral"
  | .sell => "Sell"
  | .strong_sell => "Strong Sell"

/-- The string a `trend` value interpolates to. -/
def trendText : Trend → String
  | .bullish => "bullish"
  | .bearish => "bearish"
  | .sideways => "sideways"

/-- `generateSummary` from the source.  The source interpolates the raw
(unrounded) confidence value. -/
def generateSummary (symbol : String) (signal : SignalStrength)
    (confidence : ℚ) (trend : Trend)
    (indicators : List TechnicalIndicator) : String :=
  let bullishIndicators :=
    (indicators.filter
      (fun i => decide (i.signal = .buy ∨ i.signal = .strong_buy))).length
  let bearishIndicators :=
    (indicators.filter
      (fun i => decide (i.signal = .sell ∨ i.signal = .strong_sell))).length
  symbol.toUpper ++ ": " ++ signalText signal ++ " (" ++ toString confidence
    ++ "% confidence). The " ++ trendText trend ++ " trend is supported by "
    ++ toString bullishIndicators ++ " bullish and "
    ++ toString bearishIndicators ++ " bearish indicators out of "
    ++ toString indicators.length ++ " analyzed."

/-- The body of `generateTradingSignals` past the support/resistance step:
builds the report from the price/volume sequences and the already computed
support and resistance levels.  Factored out so that the pure engine and
the store-model engine below share it verbatim. -/
def buildReportCore (symbol now : String) (prices volumes : List ℚ)
    (support resistance : ℚ) : TradingSignal :=
  let currentPrice := prices.getD (prices.length - 1) 0
  let rsi := calculateRSI prices 14
  let rsiInd : TechnicalIndicator :=
    { name := "RSI (14)", value := rsi, signal := rsiToSignal rsi,
      interpretation := rsiInterpretation rsi }
  let sma20 := calculateSMA prices 20
  let sma50 := calculateSMA prices (min 50 prices.length)
  let sma20Ind : TechnicalIndicator :=
    { name := "SMA 20", value := sma20,
      signal := if sma20 < currentPrice then .buy else .sell,
      interpretation := if sma20 < currentPrice
        then "Price above 20-day SMA (bullish)"
        else "Price below 20-day SMA (bearish)" }
  let sma50Ind : TechnicalIndicator :=
    { name := "SMA 50", value := sma50,
      signal := if sma50 < currentPrice then .buy else .sell,
      interpretation := if sma50 < currentPrice
        then "Price above 50-day SMA (bullish)"
        else "Price below 50-day SMA (bearish)" }
  let macd := calculateMACD prices
  let macdInd : TechnicalIndicator :=
    { name := "MACD", value := macd.histogram, signal := macdToSignal macd,
      interpretation := if 0 < macd.histogram
        then "MACD histogram positive (bullish momentum)"
        else "MACD histogram negative (bearish momentum)" }
  let volumeTrend := calculateVolumeTrend volumes
  let volInd : TechnicalIndicator :=
    { name := "Volume Trend", value := volumeTrend,
      signal := if 0 < volumeTrend then .buy
        else if volumeTrend < -(1/10) then .sell else .neutral,
      interpretation := if 1/10 < volumeTrend
        then "Volume increasing (confirms trend)"
        else if volumeTrend < -(1/10)
          then "Volume decreasing (weakening trend)"
          else "Volume stable" }
  let indicators := [rsiInd, sma20Ind, sma50Ind, macdInd, volInd]
  let signalScores := indicators.map (fun i => signalToScore i.signal)
  let avgScore := signalScores.sum / (signalScores.length : ℚ)
  let overallSignal := scoreToSignal avgScore
  let signalVariance := calculateVariance signalScores
  let confidence := max 0 (min 100 (100 - signalVariance * 20))
  let trend := determineTrend prices sma20 sma50
  let volatility := calculateVolatility prices
  let summary := generateSummary symbol overallSignal confidence trend indicators
  { symbol := symbol.toUpper,
    currentPrice := currentPrice,
    overallSignal := overallSignal,
    confidence := ((jsRound confidence : ℤ) : ℚ),
    indicators := indicators,
    supportLevel := support,
    resistanceLevel := resistance,
    trend := trend,
    volatility := volatility,
    summary := summary,
    generatedAt := now }

/-- The report `generateTradingSignals` assembles for a series that passed
the length check. -/
def buildReport (symbol now : String) (priceHistory : List PriceData) :
    TradingSignal :=
  let prices := priceHistory.map (fun p => p.price)
  let volumes := priceHistory.map (fun p => p.volume)
  let sr := calculateSupportResistance prices
  buildReportCore symbol now prices volumes sr.1 sr.2

/-- `generateTradingSignals` from the source.  The fetched price history
and the wall-clock time string are the two effects of the original
function, made explicit arguments here. -/
def generateTradingSignals (symbol now : String)
    (priceHistory : List PriceData) : Except String TradingSignal :=
  if priceHistory.length < 14 then
    .error "Insufficient price history for technical analysis"
  else
    .ok (buildReport symbol now priceHistory)

/-! ## A store model for the one mutating operation

JavaScript arrays are heap references.  Every array operation the engine
uses (`map`, `slice`, `filter`, `reduce`, spread) allocates fresh arrays or
only reads — except `Array.prototype.sort`, which sorts its receiver in
place.  `calculateSupportResistance` writes `[...prices].sort((a, b) => a - b)`:
the spread allocates a copy and `sort` mutates that copy.  The store model
below makes this aliasing explicit so that the engine's frame property
(the input arrays are untouched) is a real statement rather than a
tautology of a pure embedding. -/

/-- A heap of arrays; a reference is an index into the store. -/
abbrev Store := List (List ℚ)

/-- Read the array a reference designates. -/
def readArr (s : Store) (r : ℕ) : List ℚ := s.getD r []

/-- Allocate a fresh array (the spread `[...prices]`): returns the new
reference and the grown store. -/
def allocArr (s : Store) (l : List ℚ) : ℕ × Store := (s.length, s ++ [l])

/-- `Array.prototype.sort((a, b) => a - b)`: sorts the referenced array in
place. -/
def sortInPlace (s : Store) (r : ℕ) : Store := s.set r (sortAsc (readArr s r))

/-- `calculateSupportResistance` with the JS aliasing explicit: copy the
prices array, sort the copy in place, read the percentile entries from the
copy. -/
def calculateSupportResistanceSt (s : Store) (r : ℕ) : (ℚ × ℚ) × Store :=
  let a := allocArr s (readArr s r)
  let s2 := sortInPlace a.2 a.1
  let sorted := readArr s2 a.1
  ((sorted.getD (⌊(sorted.length : ℚ) * (1/10)⌋).toNat 0,
    sorted.getD (⌊(sorted.length : ℚ) * (9/10)⌋).toNat 0), s2)

/-- `generateTradingSignals` over the store model: the price and volume
series live in the store and only the support/resistance step touches it
(through `calculateSupportResistanceSt`); everything else reads. -/
def generateTradingSignalsSt (symbol now : String) (s : Store) (rP rV : ℕ) :
    Except String TradingSignal × Store :=
  let prices := readArr s rP
  let volumes := readArr s rV
  if prices.length < 14 then
    (.error "Insufficient price history for technical analysis", s)
  else
    let srs := calculateSupportResistanceSt s rP
    (.ok (buildReportCore symbol now prices volumes srs.1.1 srs.1.2), srs.2)

/-- A strictly increasing 60-point series with a weekly change of only
`7/1052`, below 2 percent: prices `1000, 1001, ..., 1059`, constant volume. -/
def slowSeries : List PriceData :=
  [⟨0, 1000, 1000⟩,
   ⟨1, 1001, 1000⟩,
   ⟨2, 1002, 1000⟩,
   ⟨3, 1003, 1000⟩,
   ⟨4, 1004, 1000⟩,
   ⟨5, 1005, 1000⟩,
   ⟨6, 1006, 1000⟩,
   ⟨7, 1007, 1000⟩,
   ⟨8, 1008, 1000⟩,
   ⟨9, 1009, 1000⟩,
   ⟨10, 1010, 1000⟩,
   ⟨11, 1011, 1000⟩,
   ⟨12, 1012, 1000⟩,
   ⟨13, 1013, 1000⟩,
   ⟨14, 1014, 1000⟩,
   ⟨15, 1015, 1000⟩,
   ⟨16, 1016, 1000⟩,
   ⟨17, 1017, 1000⟩,
   ⟨18, 1018, 1000⟩,
   ⟨19, 1019, 1000⟩,
   ⟨20, 1020, 1000⟩,
   ⟨21, 1021, 1000⟩,
   ⟨22, 1022, 1000⟩,
   ⟨23, 1023, 1000⟩,
   ⟨24, 1024, 1000⟩,
   ⟨25, 1025, 1000⟩,
   ⟨26, 1026, 1000⟩,
   ⟨27, 1027, 1000⟩,
   ⟨28, 1028, 1000⟩,
   ⟨29, 1029, 1000⟩,
   ⟨30, 1030, 1000⟩,
   ⟨31, 1031, 1000⟩,
   ⟨32, 1032, 1000⟩,
   ⟨33, 1033, 1000⟩,
   ⟨34, 1034, 1000⟩,
   ⟨35, 1035, 1000⟩,
   ⟨36, 1036, 1000⟩,
   ⟨37, 1037, 1000⟩,
   ⟨38, 1038, 1000⟩,
   ⟨39, 1039, 1000⟩,
   ⟨40, 1040, 1000⟩,
   ⟨41, 1041, 1000⟩,
   ⟨42, 1042, 1000⟩,
   ⟨43, 1043, 1000⟩,
   ⟨44, 1044, 1000⟩,
   ⟨45, 1045, 1000⟩,
   ⟨46, 1046, 1000⟩,
   ⟨47, 1047, 1000⟩,
   ⟨48, 1048, 1000⟩,
   ⟨49, 1049, 1000⟩,
   ⟨50, 1050, 1000⟩,
   ⟨51, 1051, 1000⟩,
   ⟨52, 1052, 1000⟩,
   ⟨53, 1053, 1000⟩,
   ⟨54, 1054, 1000⟩,
   ⟨55, 1055, 1000⟩,
   ⟨56, 1056, 1000⟩,
   ⟨57, 1057, 1000⟩,
   ⟨58, 1058, 1000⟩,
   ⟨59, 1059, 1000⟩]

/-- A strictly increasing 60-point series with a weekly change of
`700/5300`, above 2 percent: prices `100, 200, ..., 6000`, constant volume. -/
def steepSeries : List PriceData :=
  [⟨0, 100, 1000⟩,
   ⟨1, 200, 1000⟩,
   ⟨2, 300, 1000⟩,
   ⟨3, 400, 1000⟩,
   ⟨4, 500, 1000⟩,
   ⟨5, 600, 1000⟩,
   ⟨6, 700, 1000⟩,
   ⟨7, 800, 1000⟩,
   ⟨8, 900, 1000⟩,
   ⟨9, 1000, 1000⟩,
   ⟨10, 1100, 1000⟩,
   ⟨11, 1200, 1000⟩,
   ⟨12, 1300, 1000⟩,
   ⟨13, 1400, 1000⟩,
   ⟨14, 1500, 1000⟩,
   ⟨15, 1600, 1000⟩,
   ⟨16, 1700, 1000⟩,
   ⟨17, 1800, 1000⟩,
   ⟨18, 1900, 1000⟩,
   ⟨19, 2000, 1000⟩,
   ⟨20, 2100, 1000⟩,
   ⟨21, 2200, 1000⟩,
   ⟨22, 2300, 1000⟩,
   ⟨23, 2400, 1000⟩,
   ⟨24, 2500, 1000⟩,
   ⟨25, 2600, 1000⟩,
   ⟨26, 2700, 1000⟩,
   ⟨27, 2800, 1000⟩,
   ⟨28, 2900, 1000⟩,
   ⟨29, 3000, 1000⟩,
   ⟨30, 3100, 1000⟩,
   ⟨31, 3200, 1000⟩,
   ⟨32, 3300, 1000⟩,
   ⟨33, 3400, 1000⟩,
   ⟨34, 3500, 1000⟩,
   ⟨35, 3600, 1000⟩,
   ⟨36, 3700, 1000⟩,
   ⟨37, 3800, 1000⟩,
   ⟨38, 3900, 1000⟩,
   ⟨39, 4000, 1000⟩,
   ⟨40, 4100, 1000⟩,
   ⟨41, 4200, 1000⟩,
   ⟨42, 4300, 1000⟩,
   ⟨43, 4400, 1000⟩,
   ⟨44, 4500, 1000⟩,
   ⟨45, 4600, 1000⟩,
   ⟨46, 4700, 1000⟩,
   ⟨47, 4800, 1000⟩,
   ⟨48, 4900, 1000⟩,
   ⟨49, 5000, 1000⟩,
   ⟨50, 5100, 1000⟩,
   ⟨51, 5200, 1000⟩,
   ⟨52, 5300, 1000⟩,
   ⟨53, 5400, 1000⟩,
   ⟨54, 5500, 1000⟩,
   ⟨55, 5600, 1000⟩,
   ⟨56, 5700, 1000⟩,
   ⟨57, 5800, 1000⟩,
   ⟨58, 5900, 1000⟩,
   ⟨59, 6000, 1000⟩]

/-! ## Helper lemmas -/

theorem getD_of_lt {α : Type} (l : List α) (i : ℕ) (d : α) (h : i < l.length) :
    l.getD i d = l[i] := by
  rw [List.getD_eq_getElem?_getD, List.getElem?_eq_getElem h, Option.getD_some]

/-- The store model agrees with the pure function on the returned value. -/
theorem calculateSupportResistanceSt_fst (s : Store) (r : ℕ) :
    (calculateSupportResistanceSt s r).1
      = calculateSupportResistance (readArr s r) := by
  simp only [calculateSupportResistanceSt, calculateSupportResistance, allocArr,
    sortInPlace]
  generalize readArr s r = P
  have hl : s.length < (s ++ [P]).length := by simp
  have hP : readArr (s ++ [P]) s.length = P := by
    unfold readArr
    rw [List.getD_eq_getElem?_getD, List.getElem?_append_right (le_refl _)]
    simp
  rw [hP]
  have hQ : readArr ((s ++ [P]).set s.length (sortAsc P)) s.length = sortAsc P := by
    unfold readArr
    rw [List.getD_eq_getElem?_getD, List.getElem?_set_self hl, Option.getD_some]
  rw [hQ]

/-- Writing the freshly allocated copy leaves every previously allocated
array unchanged. -/
theorem readArr_set_fresh (s : Store) (p x : List ℚ) (r : ℕ)
    (h : r < s.length) :
    readArr ((s ++ [p]).set s.length x) r = readArr s r := by
  unfold readArr
  rw [List.getD_eq_getElem?_getD, List.getD_eq_getElem?_getD,
    List.getElem?_set_ne h.ne', List.getElem?_append, if_pos h]

/-- A series that passes the length gate produces its report. -/
theorem generateTradingSignals_ok (sym now : String) (ph : List PriceData)
    (h : ¬ ph.length < 14) :
    generateTradingSignals sym now ph = .ok (buildReport sym now ph) := by
  rw [generateTradingSignals, if_neg h]

/-- The generation timestamp of a report is the clock value the engine was
invoked with. -/
theorem buildReport_generatedAt (sym now : String) (ph : List PriceData) :
    (buildReport sym now ph).generatedAt = now := rfl

/-- **C4.** The engine fails with the insufficient-history error exactly
when the series has fewer than 14 points, and otherwise returns a report:
in particular a 13-point series is rejected and a 14-point series is
accepted. -/
theorem length_gate_insufficient_history (sym now : String)
    (ph : List PriceData) :
    (ph.length < 14 →
      generateTradingSignals sym now ph
        = .error "Insufficient price history for technical analysis")
    ∧ (14 ≤ ph.length →
      generateTradingSignals sym now ph = .ok (buildReport sym now ph))
    ∧ ((∃ r, generateTradingSignals sym now ph = .ok r) ↔ 14 ≤ ph.length) := by
  refine ⟨fun h => ?_, fun h => ?_, ?_⟩
  · rw [generateTradingSignals, if_pos h]
  · exact generateTradingSignals_ok sym now ph (not_lt.2 h)
  · constructor
    · rintro ⟨r, hr⟩
      by_contra hlen
      rw [generateTradingSignals, if_pos (lt_of_not_le hlen)] at hr
      exact Except.noConfusion hr
    · exact fun h => ⟨_, generateTradingSignals_ok sym now ph (not_lt.2 h)⟩

/-- **C4 witness.** A 13-point series is rejected with the
insufficient-history error and a 14-point series is accepted. -/
theorem length_gate_insufficient_history_witness :
    generateTradingSignals "BTC" "t" (List.replicate 13 ⟨0, 100, 1000⟩)
      = .error "Insufficient price history for technical analysis"
    ∧ (∃ r, generateTradingSignals "BTC" "t" (List.replicate 14 ⟨0, 100, 1000⟩)
      = .ok r) :=
  ⟨(length_gate_insufficient_history "BTC" "t" _).1 (by decide),
   (length_gate_insufficient_history "BTC" "t" _).2.2.2 (by decide)⟩

/-- **C6.** The MACD triple: `macd` is the difference of the 12- and
26-period EMAs, the signal line is the 9-period EMA of all but the last 9
raw prices with the scalar `macd` appended, and the histogram is
`macd − signal`. -/
theorem macd_construction (prices : List ℚ) :
    (calculateMACD prices).macd
      = calculateEMA prices 12 - calculateEMA prices 26
    ∧ (calculateMACD prices).signal
      = calculateEMA (prices.take (prices.length - 9)
          ++ [calculateEMA prices 12 - calculateEMA prices 26]) 9
    ∧ (calculateMACD prices).histogram
      = (calculateMACD prices).macd - (calculateMACD prices).signal :=
  ⟨rfl, rfl, rfl⟩

/-- **C10.** Because the histogram is exactly `macd − signal`, the two
conjuncts of each branch of `macdToSignal` are equivalent, and the MACD
signal is `neutral` precisely when the histogram vanishes. -/
theorem macd_classifier_conjuncts (prices : List ℚ) :
    (0 < (calculateMACD prices).histogram
      ↔ (calculateMACD prices).signal < (calculateMACD prices).macd)
    ∧ ((calculateMACD prices).histogram < 0
      ↔ (calculateMACD prices).macd < (calculateMACD prices).signal)
    ∧ (macdToSignal (calculateMACD prices) = .neutral
      ↔ (calculateMACD prices).histogram = 0) := by
  have hh : (calculateMACD prices).histogram
      = (calculateMACD prices).macd - (calculateMACD prices).signal := rfl
  refine ⟨by rw [hh]; exact sub_pos, by rw [hh]; exact sub_neg, ?_⟩
  unfold macdToSignal
  rcases lt_trichotomy (calculateMACD prices).histogram 0 with h | h | h
  · have h2 : (calculateMACD prices).macd < (calculateMACD prices).signal :=
      sub_neg.1 (hh ▸ h)
    rw [if_neg (by rintro ⟨h3, -⟩; linarith), if_pos ⟨h, h2⟩]
    constructor
    · intro hc
      split at hc <;> exact SignalStrength.noConfusion hc
    · intro hc; linarith
  · have h2 : ¬ (0 < (calculateMACD prices).histogram
        ∧ (calculateMACD prices).signal < (calculateMACD prices).macd) := by
      rintro ⟨h3, -⟩; linarith
    have h3 : ¬ ((calculateMACD prices).histogram < 0
        ∧ (calculateMACD prices).macd < (calculateMACD prices).signal) := by
      rintro ⟨h4, -⟩; linarith
    rw [if_neg h2, if_neg h3]
    simp [h]
  · have h2 : (calculateMACD prices).signal < (calculateMACD prices).macd :=
      sub_pos.1 (hh ▸ h)
    rw [if_pos ⟨h, h2⟩]
    constructor
    · intro hc
      split at hc <;> exact SignalStrength.noConfusion hc
    · intro hc; linarith

/-- **C9.** The engine never mutates its input: after a full analysis run
over the store model, the input price and volume arrays read back exactly
as before the call (the support/resistance step sorts a fresh copy, and
every other array operation of the source allocates or only reads). -/
theorem engine_does_not_mutate_input (sym now : String) (s : Store)
    (rP rV : ℕ) (hP : rP < s.length) (hV : rV < s.length) :
    readArr (generateTradingSignalsSt sym now s rP rV).2 rP = readArr s rP
    ∧ readArr (generateTradingSignalsSt sym now s rP rV).2 rV = readArr s rV := by
  simp only [generateTradingSignalsSt, calculateSupportResistanceSt, allocArr,
    sortInPlace]
  split
  · exact ⟨rfl, rfl⟩
  · exact ⟨readArr_set_fresh s _ _ rP hP, readArr_set_fresh s _ _ rV hV⟩

/-- **C9 witness.** A concrete two-array store: a full run leaves both the
price and the volume array exactly as they were. -/
theorem engine_does_not_mutate_input_witness :
    readArr (generateTradingSignalsSt "BTC" "t"
      [[100, 103, 101, 104], [1000, 1100, 900, 1200]] 0 1).2 0
        = readArr [[100, 103, 101, 104], [1000, 1100, 900, 1200]] 0
    ∧ readArr (generateTradingSignalsSt "BTC" "t"
      [[100, 103, 101, 104], [1000, 1100, 900, 1200]] 0 1).2 1
        = readArr [[100, 103, 101, 104], [1000, 1100, 900, 1200]] 1 :=
  engine_does_not_mutate_input "BTC" "t" _ 0 1 (by decide) (by decide)

/-- **C2 (amended).** The engine is deterministic up to the generation
timestamp: two invocations on the identical series agree on every report
field except `generatedAt`, which copies the wall-clock value of each
invocation. -/
theorem report_deterministic_except_timestamp (sym nowA nowB : String)
    (ph : List PriceData) (h : 14 ≤ ph.length) :
    ∃ rA rB, generateTradingSignals sym nowA ph = .ok rA
    ∧ generateTradingSignals sym nowB ph = .ok rB
    ∧ rA.symbol = rB.symbol
    ∧ rA.currentPrice = rB.currentPrice
    ∧ rA.overallSignal = rB.overallSignal
    ∧ rA.confidence = rB.confidence
    ∧ rA.indicators = rB.indicators
    ∧ rA.supportLevel = rB.supportLevel
    ∧ rA.resistanceLevel = rB.resistanceLevel
    ∧ rA.trend = rB.trend
    ∧ rA.volatility = rB.volatility
    ∧ rA.summary = rB.summary
    ∧ rA.generatedAt = nowA ∧ rB.generatedAt = nowB :=
  ⟨buildReport sym nowA ph, buildReport sym nowB ph,
   generateTradingSignals_ok sym nowA ph (not_lt.2 h),
   generateTradingSignals_ok sym nowB ph (not_lt.2 h),
   rfl, rfl, rfl, rfl, rfl, rfl, rfl, rfl, rfl, rfl, rfl, rfl⟩

/-- **C2 witness.** The determinism-up-to-timestamp theorem at a concrete
14-point series and two concrete clock values. -/
theorem report_deterministic_except_timestamp_witness :
    ∃ rA rB, generateTradingSignals "BTC" "2024-01-01T00:00:00.000Z"
      (List.replicate 14 ⟨0, 100, 1000⟩) = .ok rA
    ∧ generateTradingSignals "BTC" "2024-01-02T00:00:00.000Z"
      (List.replicate 14 ⟨0, 100, 1000⟩) = .ok rB
    ∧ rA.symbol = rB.symbol
    ∧ rA.currentPrice = rB.currentPrice
    ∧ rA.overallSignal = rB.overallSignal
    ∧ rA.confidence = rB.confidence
    ∧ rA.indicators = rB.indicators
    ∧ rA.supportLevel = rB.supportLevel
    ∧ rA.resistanceLevel = rB.resistanceLevel
    ∧ rA.trend = rB.trend
    ∧ rA.volatility = rB.volatility
    ∧ rA.summary = rB.summary
    ∧ rA.generatedAt = "2024-01-01T00:00:00.000Z"
    ∧ rB.generatedAt = "2024-01-02T00:00:00.000Z" :=
  report_deterministic_except_timestamp "BTC" _ _ _ (by decide)

/-- **C2 counterexample.** Two invocations of the engine on the identical
series are not byte-identical reports: the `generatedAt` field copies the
clock, so invocations at different instants differ. -/
theorem report_not_identical_across_invocations :
    generateTradingSignals "BTC" "2024-01-01T00:00:00.000Z"
      (List.replicate 14 ⟨0, 100, 1000⟩)
    ≠ generateTradingSignals "BTC" "2024-01-02T00:00:00.000Z"
      (List.replicate 14 ⟨0, 100, 1000⟩) := by
  intro h
  rw [generateTradingSignals_ok _ _ _ (by decide),
    generateTradingSignals_ok _ _ _ (by decide)] at h
  have h2 := congrArg TradingSignal.generatedAt (Except.ok.inj h)
  rw [buildReport_generatedAt, buildReport_generatedAt] at h2
  exact absurd h2 (by decide)

/-- The average gain of the RSI computation is nonnegative. -/
theorem rsiAvgGain_nonneg (prices : List ℚ) (period : ℕ) :
    0 ≤ rsiAvgGain prices period := by
  simp only [rsiAvgGain]
  split
  · refine div_nonneg (List.sum_nonneg fun x hx => ?_) (Nat.cast_nonneg period)
    exact le_of_lt (of_decide_eq_true (List.mem_filter.1 hx).2)
  · exact le_refl 0

/-- The average loss of the RSI computation is nonnegative. -/
theorem rsiAvgLoss_nonneg (prices : List ℚ) (period : ℕ) :
    0 ≤ rsiAvgLoss prices period := by
  simp only [rsiAvgLoss]
  split
  · refine div_nonneg (List.sum_nonneg fun x hx => ?_) (Nat.cast_nonneg period)
    obtain ⟨c, -, rfl⟩ := List.mem_map.1 hx
    exact abs_nonneg c
  · exact le_refl 0

/-- **C5.** For every price list the RSI lies in `[0, 100]`; it is `50`
when the list is shorter than `period + 1`, `100` when the average loss
vanishes, and otherwise `100 − 100/(1 + avgGain/avgLoss)`, which lies in
`[0, 100)` — never a division fault. -/
theorem rsi_range_and_cases (prices : List ℚ) (period : ℕ) :
    (0 ≤ calculateRSI prices period ∧ calculateRSI prices period ≤ 100)
    ∧ (prices.length < period + 1 → calculateRSI prices period = 50)
    ∧ (¬ prices.length < period + 1 → rsiAvgLoss prices period = 0 →
        calculateRSI prices period = 100)
    ∧ (¬ prices.length < period + 1 → rsiAvgLoss prices period ≠ 0 →
        calculateRSI prices period
          = 100 - 100 / (1 + rsiAvgGain prices period / rsiAvgLoss prices period)
        ∧ 0 ≤ calculateRSI prices period ∧ calculateRSI prices period < 100) := by
  have hG := rsiAvgGain_nonneg prices period
  have hL := rsiAvgLoss_nonneg prices period
  have key : rsiAvgLoss prices period ≠ 0 →
      0 ≤ 100 - 100 / (1 + rsiAvgGain prices period / rsiAvgLoss prices period)
      ∧ 100 - 100 / (1 + rsiAvgGain prices period / rsiAvgLoss prices period)
        < 100 := by
    intro hne
    have hrs : 0 ≤ rsiAvgGain prices period / rsiAvgLoss prices period :=
      div_nonneg hG hL
    constructor
    · have : 100 / (1 + rsiAvgGain prices period / rsiAvgLoss prices period)
          ≤ 100 := div_le_self (by norm_num) (by linarith)
      linarith
    · have : 0 < 100 / (1 + rsiAvgGain prices period / rsiAvgLoss prices period) :=
        div_pos (by norm_num) (by linarith)
      linarith
  refine ⟨?_, fun h => ?_, fun h1 h2 => ?_, fun h1 h2 => ?_⟩
  · unfold calculateRSI
    split_ifs with h1 h2
    · norm_num
    · norm_num
    · exact ⟨(key h2).1, le_of_lt (key h2).2⟩
  · unfold calculateRSI
    rw [if_pos h]
  · unfold calculateRSI
    rw [if_neg h1, if_pos h2]
  · unfold calculateRSI
    rw [if_neg h1, if_neg h2]
    exact ⟨rfl, (key h2).1, (key h2).2⟩

/-- **C5 witness.** The RSI range theorem instantiated at a concrete list. -/
theorem rsi_range_and_cases_witness :
    0 ≤ calculateRSI [1, 2, 1] 1 ∧ calculateRSI [1, 2, 1] 1 ≤ 100 :=
  (rsi_range_and_cases [1, 2, 1] 1).1

/-- The clamped-and-rounded confidence always lies in `[0, 100]`. -/
theorem jsRound_clamp_bounds (x : ℚ) :
    0 ≤ ((jsRound (max 0 (min 100 x)) : ℤ) : ℚ)
    ∧ ((jsRound (max 0 (min 100 x)) : ℤ) : ℚ) ≤ 100 := by
  have h0 : (0 : ℚ) ≤ max 0 (min 100 x) := le_max_left 0 _
  have h100 : max 0 (min 100 x) ≤ 100 := max_le (by norm_num) (min_le_left _ _)
  constructor
  · have h : (0 : ℤ) ≤ jsRound (max 0 (min 100 x)) := by
      unfold jsRound
      exact Int.le_floor.2 (by push_cast; linarith)
    exact_mod_cast h
  · have h : jsRound (max 0 (min 100 x)) < 101 := by
      unfold jsRound
      exact Int.floor_lt.2 (by push_cast; linarith)
    have h2 : jsRound (max 0 (min 100 x)) ≤ 100 := by omega
    exact_mod_cast h2

/-- **C7.** The report's confidence is
`round(clamp(100 − variance(indicator scores) × 20, 0, 100))` and is an
integer in `[0, 100]`. -/
theorem confidence_clamped_rounded (sym now : String) (ph : List PriceData)
    (h : 14 ≤ ph.length) :
    ∃ r, generateTradingSignals sym now ph = .ok r
    ∧ r.confidence = ((jsRound (max 0 (min 100 (100 -
        calculateVariance (r.indicators.map (fun i => signalToScore i.signal))
          * 20))) : ℤ) : ℚ)
    ∧ (∃ k : ℤ, r.confidence = (k : ℚ))
    ∧ 0 ≤ r.confidence ∧ r.confidence ≤ 100 := by
  refine ⟨buildReport sym now ph,
    generateTradingSignals_ok sym now ph (not_lt.2 h), rfl, ⟨_, rfl⟩, ?_, ?_⟩
  · exact (jsRound_clamp_bounds _).1
  · exact (jsRound_clamp_bounds _).2

/-- **C7 witness.** The confidence theorem at a concrete 14-point series. -/
theorem confidence_clamped_rounded_witness :
    ∃ r, generateTradingSignals "BTC" "t" (List.replicate 14 ⟨0, 100, 1000⟩)
      = .ok r
    ∧ r.confidence = ((jsRound (max 0 (min 100 (100 -
        calculateVariance (r.indicators.map (fun i => signalToScore i.signal))
          * 20))) : ℤ) : ℚ)
    ∧ (∃ k : ℤ, r.confidence = (k : ℚ))
    ∧ 0 ≤ r.confidence ∧ r.confidence ≤ 100 :=
  confidence_clamped_rounded "BTC" "t" _ (by decide)

/-- The ascending sort is a permutation of its input. -/
theorem sortAsc_perm (l : List ℚ) : (sortAsc l).Perm l :=
  List.mergeSort_perm l _

/-- The ascending sort is sorted. -/
theorem sortAsc_sorted (l : List ℚ) : List.Sorted (· ≤ ·) (sortAsc l) :=
  List.sorted_mergeSort' l

/-- **C8.** The support level is the entry at index `⌊0.1 n⌋` and the
resistance level the entry at index `⌊0.9 n⌋` of the ascending sort of the
`n` prices. -/
theorem support_resistance_percentile_indices (sym now : String)
    (ph : List PriceData) (h : 14 ≤ ph.length) :
    ∃ r sorted, generateTradingSignals sym now ph = .ok r
    ∧ sorted.Perm (ph.map (fun p => p.price))
    ∧ List.Sorted (· ≤ ·) sorted
    ∧ sorted.length = ph.length
    ∧ r.supportLevel = sorted.getD (⌊(sorted.length : ℚ) * (1/10)⌋).toNat 0
    ∧ r.resistanceLevel = sorted.getD (⌊(sorted.length : ℚ) * (9/10)⌋).toNat 0 := by
  refine ⟨buildReport sym now ph, sortAsc (ph.map (fun p => p.price)),
    generateTradingSignals_ok sym now ph (not_lt.2 h),
    sortAsc_perm _, sortAsc_sorted _, ?_, ?_, ?_⟩
  · exact (sortAsc_perm _).length_eq.trans (List.length_map _ _)
  · rfl
  · rfl

/-- **C8 witness.** The percentile theorem at a concrete 14-point series. -/
theorem support_resistance_percentile_indices_witness :
    ∃ r sorted, generateTradingSignals "BTC" "t"
      (List.replicate 14 ⟨0, 100, 1000⟩) = .ok r
    ∧ sorted.Perm ((List.replicate 14 (⟨0, 100, 1000⟩ : PriceData)).map
        (fun p => p.price))
    ∧ List.Sorted (· ≤ ·) sorted
    ∧ sorted.length = (List.replicate 14 (⟨0, 100, 1000⟩ : PriceData)).length
    ∧ r.supportLevel = sorted.getD (⌊(sorted.length : ℚ) * (1/10)⌋).toNat 0
    ∧ r.resistanceLevel = sorted.getD (⌊(sorted.length : ℚ) * (9/10)⌋).toNat 0 :=
  support_resistance_percentile_indices "BTC" "t" _ (by decide)

/-- One EMA smoothing step on the running value `c` with input `c` keeps
`c`, so the fold over a constant list keeps its seed. -/
theorem ema_foldl_const (k c : ℚ) (m : ℕ) :
    List.foldl (fun ema x => x * k + ema * (1 - k)) c (List.replicate m c)
      = c := by
  induction m with
  | zero => rfl
  | succ n ih =>
    rw [List.replicate_succ, List.foldl_cons,
      show c * k + c * (1 - k) = c by ring, ih]

/-- The EMA of a nonempty constant series is that constant. -/
theorem calculateEMA_replicate (c : ℚ) (n p : ℕ) (hn : n ≠ 0) :
    calculateEMA (List.replicate n c) p = c := by
  obtain ⟨m, rfl⟩ := Nat.exists_eq_succ_of_ne_zero hn
  rw [List.replicate_succ]
  exact ema_foldl_const _ c m

/-- On a flat series of at least 14 points the MACD line is `0` but the
signal line is `(4/5) · c`: the engine appends the scalar `macd = 0` to the
truncated price list, so the final smoothing step pulls the 9-period EMA
away from `c`.  The histogram is therefore `−(4/5) · c`, not `0`. -/
theorem calculateMACD_replicate (c : ℚ) (n : ℕ) (hn : 14 ≤ n) :
    (calculateMACD (List.replicate n c)).macd = 0
    ∧ (calculateMACD (List.replicate n c)).histogram = -(4/5 * c) := by
  have hn0 : n ≠ 0 := by omega
  have hmacd : calculateEMA (List.replicate n c) 12
      - calculateEMA (List.replicate n c) 26 = 0 := by
    rw [calculateEMA_replicate c n 12 hn0, calculateEMA_replicate c n 26 hn0,
      sub_self]
  have htake : (List.replicate n c).take ((List.replicate n c).length - 9)
      = List.replicate (n - 9) c := by
    rw [List.length_replicate, List.take_replicate, Nat.min_eq_left (by omega)]
  have hsig : calculateEMA (List.replicate (n - 9) c ++ [(0 : ℚ)]) 9
      = 4/5 * c := by
    obtain ⟨m, hm⟩ : ∃ m, n - 9 = m + 1 := ⟨n - 10, by omega⟩
    rw [hm, List.replicate_succ, List.cons_append]
    show List.foldl _ c (List.replicate m c ++ [(0 : ℚ)]) = 4/5 * c
    rw [List.foldl_append, ema_foldl_const, List.foldl_cons, List.foldl_nil]
    norm_num [mul_comm]
  constructor
  · show calculateEMA (List.replicate n c) 12
      - calculateEMA (List.replicate n c) 26 = 0
    exact hmacd
  · show calculateEMA (List.replicate n c) 12
        - calculateEMA (List.replicate n c) 26
      - calculateEMA ((List.replicate n c).take
          ((List.replicate n c).length - 9)
        ++ [calculateEMA (List.replicate n c) 12
          - calculateEMA (List.replicate n c) 26]) 9 = -(4/5 * c)
    rw [hmacd, htake, hsig]
    ring

/-- On a flat series of at least 15 points every RSI change is zero, both
averages vanish, and the zero-loss branch returns `100`; at exactly 14
points the short-history branch returns `50`. -/
theorem calculateRSI_replicate (c : ℚ) (n : ℕ) (hn : 14 ≤ n) :
    calculateRSI (List.replicate n c) 14 = if n = 14 then 50 else 100 := by
  by_cases h14 : n = 14
  · subst h14
    rw [if_pos rfl]
    unfold calculateRSI
    rw [List.length_replicate, if_pos (by norm_num)]
  · have h15 : 15 ≤ n := by omega
    rw [if_neg h14]
    have hchanges : rsiChanges (List.replicate n c) 14 = List.replicate 14 0 := by
      unfold rsiChanges
      simp only [List.length_replicate, List.drop_replicate,
        List.tail_replicate, List.zipWith_replicate]
      rw [show min (n - (n - 15) - 1) (n - (n - 15)) = 14 by omega]
      rw [sub_self]
    have hloss : rsiAvgLoss (List.replicate n c) 14 = 0 := by
      unfold rsiAvgLoss
      rw [hchanges, List.filter_replicate]
      simp
    unfold calculateRSI
    rw [List.length_replicate, if_neg (by omega), if_pos hloss]

/-- The population variance of a constant-zero list is zero. -/
theorem calculateVariance_replicate_zero (m : ℕ) :
    calculateVariance (List.replicate m (0 : ℚ)) = 0 := by
  simp [calculateVariance]

/-- A flat series has zero returns, hence zero variance, hence volatility
`low`. -/
theorem calculateVolatility_replicate (c : ℚ) (n : ℕ) :
    calculateVolatility (List.replicate n c) = .low := by
  unfold calculateVolatility
  simp only [List.tail_replicate, List.zipWith_replicate]
  rw [show (c - c) / c = 0 by rw [sub_self, zero_div],
    calculateVariance_replicate_zero, if_pos (by norm_num)]

/-- **C1 (amended).** For a perfectly flat series of a nonzero constant
`c` with length ≥ 14: the volatility classification is `low`; the RSI is
`50` only at length exactly 14 (the short-history fallback) and `100` for
length ≥ 15 (the zero-loss branch, `avgLoss = 0`); the MACD line is `0`
but the MACD histogram is `−(4/5)·c`, which is nonzero. -/
theorem flat_series_rsi_volatility_macd (c : ℚ) (n : ℕ) (hc : c ≠ 0)
    (hn : 14 ≤ n) :
    calculateVolatility (List.replicate n c) = .low
    ∧ calculateRSI (List.replicate n c) 14 = (if n = 14 then 50 else 100)
    ∧ (calculateMACD (List.replicate n c)).macd = 0
    ∧ (calculateMACD (List.replicate n c)).histogram = -(4/5 * c)
    ∧ (calculateMACD (List.replicate n c)).histogram ≠ 0 := by
  refine ⟨calculateVolatility_replicate c n, calculateRSI_replicate c n hn,
    (calculateMACD_replicate c n hn).1, (calculateMACD_replicate c n hn).2, ?_⟩
  rw [(calculateMACD_replicate c n hn).2]
  intro h
  apply hc
  have : (4 : ℚ)/5 * c = 0 := by linarith
  rcases mul_eq_zero.1 this with h4 | hc0
  · norm_num at h4
  · exact hc0

/-- **C1 witness.** The flat-series theorem at `c = 100`, `n = 15`. -/
theorem flat_series_rsi_volatility_macd_witness :
    calculateVolatility (List.replicate 15 (100 : ℚ)) = .low
    ∧ calculateRSI (List.replicate 15 (100 : ℚ)) 14
      = (if 15 = 14 then 50 else 100)
    ∧ (calculateMACD (List.replicate 15 (100 : ℚ))).macd = 0
    ∧ (calculateMACD (List.replicate 15 (100 : ℚ))).histogram = -(4/5 * 100)
    ∧ (calculateMACD (List.replicate 15 (100 : ℚ))).histogram ≠ 0 :=
  flat_series_rsi_volatility_macd 100 15 (by norm_num) (by norm_num)

/-- **C1 counterexample.** On the flat 15-point series of value `100` the
RSI is `100`, not `50`, and the MACD histogram is `−80`, not `0`. -/
theorem flat_series_claim_fails :
    calculateRSI (List.replicate 15 (100 : ℚ)) 14 = 100
    ∧ calculateRSI (List.replicate 15 (100 : ℚ)) 14 ≠ 50
    ∧ (calculateMACD (List.replicate 15 (100 : ℚ))).histogram = -80
    ∧ (calculateMACD (List.replicate 15 (100 : ℚ))).histogram ≠ 0 := by
  have h1 := calculateRSI_replicate 100 15 (by norm_num)
  rw [if_neg (by norm_num)] at h1
  have h2 := (calculateMACD_replicate 100 15 (by norm_num)).2
  rw [show -((4 : ℚ)/5 * 100) = -80 by norm_num] at h2
  refine ⟨h1, ?_, h2, ?_⟩
  · rw [h1]; norm_num
  · rw [h2]; norm_num

/-- A list bounded above by `M` with one element strictly below `M` sums to
strictly less than `length · M`. -/
theorem sum_lt_card_mul (l : List ℚ) (M : ℚ)
    (hle : ∀ x ∈ l, x ≤ M) (hlt : ∃ x ∈ l, x < M) :
    l.sum < (l.length : ℚ) * M := by
  induction l with
  | nil =>
    obtain ⟨x, hx, -⟩ := hlt
    exact absurd hx (List.not_mem_nil x)
  | cons a t ih =>
    rw [List.sum_cons, List.length_cons]
    push_cast
    rw [add_mul, one_mul]
    obtain ⟨x, hx, hxM⟩ := hlt
    have hta : ∀ y ∈ t, y ≤ M := fun y hy => hle y (List.mem_cons_of_mem a hy)
    rcases List.mem_cons.1 hx with rfl | hxt
    · have ht : t.sum ≤ (t.length : ℚ) * M := by
        simpa [nsmul_eq_mul] using List.sum_le_card_nsmul t M hta
      linarith
    · have ht := ih hta ⟨x, hxt, hxM⟩
      have ha : a ≤ M := hle a (List.mem_cons_self a t)
      linarith

/-- A list bounded below by `m` sums to at least `length · m`. -/
theorem card_mul_le_sum (l : List ℚ) (m : ℚ) (h : ∀ x ∈ l, m ≤ x) :
    (l.length : ℚ) * m ≤ l.sum := by
  simpa [nsmul_eq_mul] using List.card_nsmul_le_sum l m h

/-- On a strictly increasing list every consecutive difference is
positive. -/
theorem zipWith_sub_tail_pos (l : List ℚ) (hp : List.Pairwise (· < ·) l) :
    ∀ x ∈ List.zipWith (fun a b => a - b) l.tail l, 0 < x := by
  induction l with
  | nil => intro x hx; simp at hx
  | cons a t ih =>
    cases t with
    | nil => intro x hx; simp at hx
    | cons b t2 =>
      intro x hx
      rw [show (a :: b :: t2 : List ℚ).tail = b :: t2 from rfl,
        List.zipWith_cons_cons] at hx
      rcases List.mem_cons.1 hx with rfl | hx2
      · have hab : a < b := (List.pairwise_cons.1 hp).1 b (List.mem_cons_self b t2)
        linarith
      · exact ih (List.pairwise_cons.1 hp).2 x hx2

/-- On a strictly increasing series of at least 15 points every RSI loss
is absent, so the zero-loss branch fires and the RSI is exactly 100. -/
theorem calculateRSI_increasing (prices : List ℚ)
    (hp : List.Pairwise (· < ·) prices) (h15 : 15 ≤ prices.length) :
    calculateRSI prices 14 = 100 := by
  have hwin : List.Pairwise (· < ·) (prices.drop (prices.length - 15)) :=
    hp.sublist (List.drop_sublist _ _)
  have hchanges : ∀ x ∈ rsiChanges prices 14, 0 < x := by
    unfold rsiChanges
    exact zipWith_sub_tail_pos _ hwin
  have hloss : rsiAvgLoss prices 14 = 0 := by
    unfold rsiAvgLoss
    have hnil : (rsiChanges prices 14).filter (fun c => decide (c < 0)) = [] := by
      rw [List.filter_eq_nil_iff]
      intro a ha
      simp only [decide_eq_true_eq]
      exact lt_asymm (hchanges a ha)
    rw [hnil]
    simp
  unfold calculateRSI
  rw [if_neg (by omega), if_pos hloss]

/-- On a strictly increasing series the SMA over the last `k ≥ 2` points
is strictly below the final price. -/
theorem calculateSMA_lt_last (prices : List ℚ) (k : ℕ)
    (hp : List.Pairwise (· < ·) prices) (hk2 : 2 ≤ k)
    (hkn : k ≤ prices.length) :
    calculateSMA prices k < prices.getD (prices.length - 1) 0 := by
  have hn1 : prices.length - 1 < prices.length := by omega
  have hinv := List.pairwise_iff_getElem.1 hp
  have hslen : (prices.drop (prices.length - k)).length = k := by
    rw [List.length_drop]; omega
  have key : ∀ x ∈ prices.drop (prices.length - k),
      x ≤ prices[prices.length - 1] := by
    intro x hx
    obtain ⟨j, hj, rfl⟩ := List.mem_iff_getElem.1 hx
    rw [List.getElem_drop]
    have hjk : j < k := by rwa [hslen] at hj
    rcases Nat.lt_or_ge (prices.length - k + j) (prices.length - 1) with hlt | hge
    · exact le_of_lt (hinv _ _ (by omega) hn1 hlt)
    · have heq : prices.length - k + j = prices.length - 1 := by omega
      simp only [heq]
      exact le_refl _
  have hex : ∃ x ∈ prices.drop (prices.length - k),
      x < prices[prices.length - 1] := by
    have h0 : 0 < (prices.drop (prices.length - k)).length := by
      rw [hslen]; omega
    refine ⟨(prices.drop (prices.length - k)).get ⟨0, h0⟩,
      List.get_mem _ 0 h0, ?_⟩
    rw [List.get_eq_getElem, List.getElem_drop]
    simp only [Fin.val_mk]
    exact hinv _ _ (by omega) hn1 (by omega)
  have hsum := sum_lt_card_mul _ _ key hex
  rw [hslen] at hsum
  have hk0 : (0 : ℚ) < (k : ℚ) := by exact_mod_cast (by omega : 0 < k)
  rw [getD_of_lt _ _ _ hn1]
  simp only [calculateSMA, hslen]
  rw [div_lt_iff₀ hk0, mul_comm]
  exact hsum

/-- On a strictly increasing series of at least 50 points the 50-period
SMA is strictly below the 20-period SMA. -/
theorem calculateSMA_50_lt_20 (prices : List ℚ)
    (hp : List.Pairwise (· < ·) prices) (h50 : 50 ≤ prices.length) :
    calculateSMA prices (min 50 prices.length) < calculateSMA prices 20 := by
  rw [Nat.min_eq_left h50]
  have hinv := List.pairwise_iff_getElem.1 hp
  have h20 : prices.length - 20 < prices.length := by omega
  have hlen50 : (prices.drop (prices.length - 50)).length = 50 := by
    rw [List.length_drop]; omega
  have hlen20 : (prices.drop (prices.length - 20)).length = 20 := by
    rw [List.length_drop]; omega
  have hlent : ((prices.drop (prices.length - 50)).take 30).length = 30 := by
    rw [List.length_take, hlen50]
    omega
  have hdd : (prices.drop (prices.length - 50)).drop 30
      = prices.drop (prices.length - 20) := by
    rw [List.drop_drop]
    congr 1
    omega
  have hsplit : (prices.drop (prices.length - 50)).sum
      = ((prices.drop (prices.length - 50)).take 30).sum
        + (prices.drop (prices.length - 20)).sum := by
    rw [← hdd, ← List.sum_append, List.take_append_drop]
  have ht30 : ((prices.drop (prices.length - 50)).take 30).sum
      < 30 * prices[prices.length - 20] := by
    have hforall : ∀ x ∈ (prices.drop (prices.length - 50)).take 30,
        x < prices[prices.length - 20] := by
      intro x hx
      obtain ⟨j, hj, rfl⟩ := List.mem_iff_getElem.1 hx
      rw [List.getElem_take, List.getElem_drop]
      have hj30 : j < 30 := by rwa [hlent] at hj
      exact hinv _ _ (by omega) h20 (by omega)
    have h0 : 0 < ((prices.drop (prices.length - 50)).take 30).length := by
      rw [hlent]; omega
    have := sum_lt_card_mul _ _ (fun x hx => le_of_lt (hforall x hx))
      ⟨((prices.drop (prices.length - 50)).take 30).get ⟨0, h0⟩,
        List.get_mem _ 0 h0, hforall _ (List.get_mem _ 0 h0)⟩
    rw [hlent] at this
    push_cast at this
    linarith

  have hs20 : 20 * prices[prices.length - 20]
      ≤ (prices.drop (prices.length - 20)).sum := by
    have hforall : ∀ x ∈ prices.drop (prices.length - 20),
        prices[prices.length - 20] ≤ x := by
      intro x hx
      obtain ⟨j, hj, rfl⟩ := List.mem_iff_getElem.1 hx
      rw [List.getElem_drop]
      have hj20 : j < 20 := by rwa [hlen20] at hj
      rcases Nat.eq_zero_or_pos j with rfl | hjpos
      · simp
      · exact le_of_lt (hinv _ _ h20 (by omega) (by omega))
    have := card_mul_le_sum _ _ hforall
    rwa [hlen20] at this
  simp only [calculateSMA, hlen50, hlen20]
  rw [div_lt_div_iff₀ (by norm_num) (by norm_num), hsplit]
  push_cast
  linarith

/-- On a strictly increasing positive series of at least 60 points whose
final price exceeds the price 7 periods earlier by more than 2 percent,
the trend classifier returns `bullish`. -/
theorem determineTrend_bullish (prices : List ℚ)
    (hp : List.Pairwise (· < ·) prices) (h60 : 60 ≤ prices.length)
    (hpos : ∀ x ∈ prices, 0 < x)
    (hch : 1/50 < (prices.getD (prices.length - 1) 0
        - prices.getD (prices.length - 8) 0)
      / prices.getD (prices.length - 8) 0) :
    determineTrend prices (calculateSMA prices 20)
      (calculateSMA prices (min 50 prices.length)) = .bullish := by
  have h8 : prices.length - 8 < prices.length := by omega
  have hw0 : ¬ prices.getD (prices.length - 8) 0 = 0 := by
    rw [getD_of_lt _ _ _ h8]
    exact ne_of_gt (hpos _ (List.getElem_mem h8))
  have hc1 : calculateSMA prices 20 < prices.getD (prices.length - 1) 0 :=
    calculateSMA_lt_last prices 20 hp (by omega) (by omega)
  have hc2 : calculateSMA prices (min 50 prices.length)
      < calculateSMA prices 20 :=
    calculateSMA_50_lt_20 prices hp (by omega)
  simp only [determineTrend]
  rw [if_neg hw0, if_pos ⟨hc1, hc2, hch⟩]

/-- The first indicator of a report is the RSI. -/
theorem buildReport_rsi_value (sym now : String) (ph : List PriceData) :
    ((buildReport sym now ph).indicators.getD 0 default).value
      = calculateRSI (ph.map (fun p => p.price)) 14 := rfl

/-- The second indicator of a report is the SMA-20 with its
price-versus-average signal. -/
theorem buildReport_sma20_signal (sym now : String) (ph : List PriceData) :
    ((buildReport sym now ph).indicators.getD 1 default).signal
      = if calculateSMA (ph.map (fun p => p.price)) 20
            < (ph.map (fun p => p.price)).getD
              ((ph.map (fun p => p.price)).length - 1) 0
        then SignalStrength.buy else SignalStrength.sell := rfl

/-- The third indicator of a report is the SMA-50 with its
price-versus-average signal. -/
theorem buildReport_sma50_signal (sym now : String) (ph : List PriceData) :
    ((buildReport sym now ph).indicators.getD 2 default).signal
      = if calculateSMA (ph.map (fun p => p.price))
              (min 50 (ph.map (fun p => p.price)).length)
            < (ph.map (fun p => p.price)).getD
              ((ph.map (fun p => p.price)).length - 1) 0
        then SignalStrength.buy else SignalStrength.sell := rfl

/-- The trend field of a report is the trend classifier's output. -/
theorem buildReport_trend (sym now : String) (ph : List PriceData) :
    (buildReport sym now ph).trend
      = determineTrend (ph.map (fun p => p.price))
        (calculateSMA (ph.map (fun p => p.price)) 20)
        (calculateSMA (ph.map (fun p => p.price))
          (min 50 (ph.map (fun p => p.price)).length)) := rfl

/-- **C3 (amended).** For a strictly increasing positive price series of
length ≥ 60 whose final price exceeds the price 7 periods earlier by more
than 2 percent (the classifier's week-over-week condition), the RSI is 100
(hence ≥ 70), the SMA-20 and SMA-50 indicators both signal `buy`, and the
trend is `bullish`.  Without the 2-percent condition the trend can be
`sideways`. -/
theorem increasing_series_signals (sym now : String) (ph : List PriceData)
    (h60 : 60 ≤ ph.length)
    (hp : List.Pairwise (· < ·) (ph.map (fun p => p.price)))
    (hpos : ∀ x ∈ ph.map (fun p => p.price), 0 < x)
    (hch : 1/50 < ((ph.map (fun p => p.price)).getD
          ((ph.map (fun p => p.price)).length - 1) 0
        - (ph.map (fun p => p.price)).getD
          ((ph.map (fun p => p.price)).length - 8) 0)
      / (ph.map (fun p => p.price)).getD
          ((ph.map (fun p => p.price)).length - 8) 0) :
    ∃ r, generateTradingSignals sym now ph = .ok r
    ∧ (r.indicators.getD 0 default).value = 100
    ∧ 70 ≤ (r.indicators.getD 0 default).value
    ∧ (r.indicators.getD 1 default).signal = .buy
    ∧ (r.indicators.getD 2 default).signal = .buy
    ∧ r.trend = .bullish := by
  have hlen : (ph.map (fun p => p.price)).length = ph.length :=
    List.length_map _ _
  have hrsi : calculateRSI (ph.map (fun p => p.price)) 14 = 100 :=
    calculateRSI_increasing _ hp (by rw [hlen]; omega)
  refine ⟨buildReport sym now ph,
    generateTradingSignals_ok sym now ph (by omega), ?_, ?_, ?_, ?_, ?_⟩
  · rw [buildReport_rsi_value, hrsi]
  · rw [buildReport_rsi_value, hrsi]; norm_num
  · rw [buildReport_sma20_signal,
      if_pos (calculateSMA_lt_last _ 20 hp (by norm_num) (by rw [hlen]; omega))]
  · rw [buildReport_sma50_signal,
      if_pos (calculateSMA_lt_last _ _ hp (by rw [hlen]; omega)
        (Nat.min_le_right 50 _))]
  · rw [buildReport_trend]
    exact determineTrend_bullish _ hp (by rw [hlen]; omega) hpos hch

/-- **C3 witness.** The amended theorem at the concrete steeply increasing
series `100, 200, …, 6000`. -/
theorem increasing_series_signals_witness :
    ∃ r, generateTradingSignals "BTC" "t" steepSeries = .ok r
    ∧ (r.indicators.getD 0 default).value = 100
    ∧ 70 ≤ (r.indicators.getD 0 default).value
    ∧ (r.indicators.getD 1 default).signal = .buy
    ∧ (r.indicators.getD 2 default).signal = .buy
    ∧ r.trend = .bullish :=
  increasing_series_signals "BTC" "t" steepSeries (by decide) (by decide)
    (by decide)
    (by
      have e1 : (steepSeries.map (fun p => p.price)).getD
          ((steepSeries.map (fun p => p.price)).length - 1) 0 = 6000 := by
        decide
      have e2 : (steepSeries.map (fun p => p.price)).getD
          ((steepSeries.map (fun p => p.price)).length - 8) 0 = 5300 := by
        decide
      rw [e1, e2]
      norm_num)

/-- **C3 counterexample.** A strictly increasing 60-point series with no
reversals whose overall trend is `sideways`, not `bullish`: the prices
`1000, 1001, …, 1059` rise by only `7/1052 < 2%` over the classifier's
7-period window, so the bullish branch's conjunctive week-over-week
condition fails. -/
theorem increasing_series_claim_fails :
    List.Pairwise (· < ·) (slowSeries.map (fun p => p.price))
    ∧ slowSeries.length = 60
    ∧ (generateTradingSignals "BTC" "t" slowSeries).map (fun r => r.trend)
      = .ok Trend.sideways := by
  refine ⟨by decide, by decide, ?_⟩
  rw [generateTradingSignals_ok _ _ _ (by decide)]
  show Except.ok ((buildReport "BTC" "t" slowSeries).trend)
    = Except.ok Trend.sideways
  refine congrArg Except.ok ?_
  rw [buildReport_trend]
  have hC : (slowSeries.map (fun p => p.price)).getD
      ((slowSeries.map (fun p => p.price)).length - 1) 0 = 1059 := by decide
  have hW : (slowSeries.map (fun p => p.price)).getD
      ((slowSeries.map (fun p => p.price)).length - 8) 0 = 1052 := by decide
  simp only [determineTrend]
  rw [hC, hW, if_neg (by norm_num : ¬ (1052 : ℚ) = 0)]
  split_ifs with h1 h2
  · obtain ⟨-, -, hx⟩ := h1
    norm_num at hx
  · obtain ⟨-, -, hx⟩ := h2
    norm_num at hx
  · rfl
